import Mathlib

/-!
Verification of the geddy responder (`lib/controller/responder/index.js`).

The responder's `negotiate`, `respondWith`, `respondTo` and `respond` methods
are embedded as pure Lean functions.  A thrown `UndefinedFormatError` is
modelled as `Except.error ()`; a normal return as `Except.ok`.  The external
Content-Type Resolver (`response.getContentTypeForFormat`) lives outside
`src/` and is therefore kept as an opaque parameter `resolve`; the matching
collaborator (`response.matchAcceptHeaderContentType`) is modelled from the
spec.  JavaScript truthiness of optional strings (`undefined` and `""` are
falsy) is made explicit via `truthy`.
-/

deriving instance DecidableEq for Except

namespace Responder

/-- JavaScript whitespace characters matched by the `\s` class that can occur
in an Accept header (space, tab, LF, CR, VT, FF). -/
def jsIsSpace (c : Char) : Bool :=
  c = ' ' || c = '\t' || c = '\n' || c = '\r' || c = Char.ofNat 11 || c = Char.ofNat 12

/-- Split a character list on a separator character, keeping empty pieces,
like JavaScript `String.prototype.split` with a single-character separator. -/
def splitListOn (sep : Char) : List Char → List (List Char)
  | [] => [[]]
  | c :: cs =>
    if c = sep then [] :: splitListOn sep cs
    else
      match splitListOn sep cs with
      | [] => [[c]]
      | p :: ps => (c :: p) :: ps

/-- Trim one piece produced by splitting on a comma: the whitespace around a
comma belongs to the separator `/\s*,\s*/`, so every piece but the first loses
leading whitespace and every piece but the last loses trailing whitespace
(`n` is the number of pieces, `i` the piece's index). -/
def trimPiece (n i : Nat) (p : List Char) : List Char :=
  let p1 := if i = 0 then p else p.dropWhile jsIsSpace
  if i = n - 1 then p1 else (p1.reverse.dropWhile jsIsSpace).reverse

/-- `accepts.split(/\s*,\s*/)` (responder line 73): split the raw Accept
header on commas, the whitespace around each comma going with the comma. -/
def splitAccepts (s : String) : List String :=
  let ps := splitListOn ',' s.toList
  ps.enum.map (fun q => String.mk (trimPiece ps.length q.1 q.2))

/-- `accepts[i].split(';')[0]` (responder line 102): the media-type portion of
one Accept entry, i.e. the text before the first `;`. -/
def acceptMedia (s : String) : String :=
  String.mk (s.toList.takeWhile (fun c => c ≠ ';'))

/-- JavaScript truthiness of an optional string: `undefined` and `""` are
falsy. -/
def truthy : Option String → Bool
  | none => false
  | some s => s != ""

/-- Responder lines 72-78: a truthy Accept header is split on commas; a
missing (or empty, hence falsy) one is replaced by `['*/*']`. -/
def acceptsOf (acceptHeader : Option String) : List String :=
  match acceptHeader with
  | some a => if a = "" then ["*/*"] else splitAccepts a
  | none => ["*/*"]

/-- Responder lines 59-68: clone `this.formats` and append every key of the
user's custom strategies that is not already present. -/
def acceptFormatsOf (formats strategyKeys : List String) : List String :=
  strategyKeys.foldl (fun acc key => if acc.contains key then acc else acc ++ [key]) formats

/-- Responder lines 80-97: the candidate format list.  An explicit truthy
`frmt` argument is the sole candidate; otherwise a truthy `params.format`
is the sole candidate when it occurs in the merged format list and leaves
the candidate list empty when it does not; with no hints all merged formats
are candidates. -/
def typesOf (acceptFormats : List String) (frmt paramsFormat : Option String) : List String :=
  if truthy frmt then [frmt.getD ""]
  else if truthy paramsFormat then
    if acceptFormats.contains (paramsFormat.getD "") then [paramsFormat.getD ""] else []
  else acceptFormats

/-- The result object of `negotiate` (responder lines 146-149); the fields
are optional because the JavaScript variables `format` and `contentType`
start out `undefined`. -/
structure NegotiationResult where
  format : Option String
  contentType : Option String
deriving Repr, DecidableEq

/-- Modelled from the spec: `response.matchAcceptHeaderContentType` lives in
`lib/response`, outside `src/`.  Per the spec it asks whether any Accept
entry's media type (its `;`-parameters stripped before comparison) matches
the content type registered for the candidate format, returning the matching
MIME string or nothing. -/
def matchAcceptHeaderContentType (resolve : String → Option String)
    (accepts : List String) (format : String) : Option String :=
  match resolve format with
  | some ct => if accepts.any (fun a => acceptMedia a == ct) then some ct else none
  | none => none

/-- Responder lines 125-138: the non-wildcard loop over the candidate
formats.  Each iteration either breaks with a match (`.ok (some _)`) or
throws (`.error ()`), so later candidates are never reached; on an empty
list the loop body never runs and no variables are assigned (`.ok none`). -/
def negotiateLoop (resolve : String → Option String) (accepts : List String) :
    List String → Except Unit (Option (String × String))
  | [] => .ok none
  | t :: _ =>
    match matchAcceptHeaderContentType resolve accepts t with
    | some m => .ok (some (t, m))
    | none => .error ()

/-- Responder lines 100-149: the decision once `accepts` and `types` are
fixed.  An empty candidate list throws; a `*/*` entry short-circuits to the
first candidate and its resolved content type (throwing when it does not
resolve); otherwise the loop runs. -/
def negotiateDecide (resolve : String → Option String) (accepts types : List String) :
    Except Unit NegotiationResult :=
  if types.length ≠ 0 then
    if accepts.any (fun a => acceptMedia a == "*/*") then
      match resolve (types.headD "") with
      | some ct => .ok ⟨some (types.headD ""), some ct⟩
      | none => .error ()
    else
      match negotiateLoop resolve accepts types with
      | .ok (some (f, ct)) => .ok ⟨some f, some ct⟩
      | .ok none => .ok ⟨none, none⟩
      | .error () => .error ()
  else .error ()

/-- Responder lines 47-150: `this.negotiate(frmt, strategies)`.
`paramsFormat` is `this.params.format`, `acceptHeader` is
`this.headers.accept`, `formats` is `this.formats`, `strategyKeys` the keys
of the `strategies` argument in insertion order; `resolve` is the external
`response.getContentTypeForFormat` collaborator. -/
def negotiate (resolve : String → Option String) (paramsFormat acceptHeader : Option String)
    (formats : List String) (frmt : Option String) (strategyKeys : List String) :
    Except Unit NegotiationResult :=
  negotiateDecide resolve (acceptsOf acceptHeader)
    (typesOf (acceptFormatsOf formats strategyKeys) frmt paramsFormat)

/-- Modelled from the spec: geddy's default format → MIME table of the
Content-Type Resolver (`lib/response`, outside `src/`), for the formats the
built-in strategies cover. -/
def defaultResolve : String → Option String
  | "html" => some "text/html"
  | "json" => some "application/json"
  | "xml" => some "application/xml"
  | "js" => some "application/javascript"
  | "txt" => some "text/plain"
  | _ => none

/-- `String.prototype.toLowerCase()`: lower-case the string character by
character. -/
def jsToLower (s : String) : String :=
  String.mk (s.toList.map Char.toLower)

/-- The shape of the `content` argument of `respondWith` as far as its type
inference looks at it: a single model-like value or an array of them, each
carrying an optional `type` attribute (absent or non-string `type` is
`none`). -/
inductive Content
  | single (typeAttr : Option String)
  | coll (elems : List (Option String))
deriving Repr, DecidableEq

/-- Responder lines 167-179: determine the type of model from the content.
`content[0].type.toLowerCase()` / `content.type.toLowerCase()` throws a
TypeError (`.error ()`) when the attribute is absent; an empty array yields
`type = null` (`.ok none`). -/
def inferType : Content → Except Unit (Option String)
  | .coll [] => .ok none
  | .coll (e :: _) =>
    match e with
    | some t => .ok (some (jsToLower t))
    | none => .error ()
  | .single e =>
    match e with
    | some t => .ok (some (jsToLower t))
    | none => .error ()

/-- Responder lines 162-187: the type-inference-and-attachment portion of
`respondWith`.  The inferred type is computed first (lines 167-179, possibly
throwing), then a truthy `opts.type` overrides it (lines 182-184); the
returned value is what line 187 attaches to `opts.type` before the
`respondTo` dispatch. -/
def respondWithType (content : Content) (optsType : Option String) :
    Except Unit (Option String) :=
  match inferType content with
  | .error e => .error e
  | .ok t => .ok (if truthy optsType then optsType else t)

/-- What `respondTo` ends up doing after negotiation: return silently
because the request already completed, invoke a user strategy handler, or
fall through to the default `respond`. -/
inductive DispatchAction
  | silent
  | handler (format : String)
  | defaultRespond
deriving Repr, DecidableEq

/-- `typeof strategies[f] === 'function'` (responder line 216): the
strategies object maps each key to a value that is or is not a function; a
missing key is `undefined`, not a function. -/
def stratIsFn (strategies : List (String × Bool)) (f : String) : Bool :=
  match strategies.lookup f with
  | some b => b
  | none => false

/-- Responder lines 202-223: `this.respondTo(content, strategies, opts, cb)`.
It negotiates with no explicit format (`null`) and the given strategies; a
negotiation throw propagates (`.error ()`).  On success, if the external
`controller.completed` flag is set, it returns without doing anything; else
it invokes the strategy handler for the negotiated format when that is a
function, and `this.respond` otherwise. -/
def respondTo (resolve : String → Option String) (paramsFormat acceptHeader : Option String)
    (formats : List String) (completed : Bool) (strategies : List (String × Bool)) :
    Except Unit DispatchAction :=
  match negotiate resolve paramsFormat acceptHeader formats none (strategies.map Prod.fst) with
  | .error () => .error ()
  | .ok negotiated =>
    if completed then .ok .silent
    else if stratIsFn strategies (negotiated.format.getD "") then
      .ok (.handler (negotiated.format.getD ""))
    else .ok .defaultRespond

/-- The options hash `respond` reads: the negotiated format and content type
plus an optional status code. -/
structure RespondOpts where
  format : String
  contentType : String
  statusCode : Option Nat
deriving Repr, DecidableEq

/-- One call to the external `_doResponse` write-response collaborator
(responder lines 240-244): status code, headers, formatted body, and the
caller's callback, forwarded as received. -/
structure DoResponseCall (β γ : Type) where
  statusCode : Nat
  headers : List (String × String)
  body : β
  cb : γ
deriving Repr, DecidableEq

/-- JavaScript `x || d` on an optional number: `undefined` and `0` are falsy
and give the default. -/
def jsOrNat : Option Nat → Nat → Nat
  | some n, d => if n = 0 then d else n
  | none, d => d

/-- Responder lines 238-245: the `formatCb` completion callback `respond`
hands to `response.formatContent`.  Once the collaborator delivers the
formatted body it calls `_doResponse` with `opts.statusCode || 200`, the
`Content-Type` header from `opts.contentType`, the body, and the caller's
callback. -/
def formatCb {β γ : Type} (opts : RespondOpts) (cb : γ) (formattedContent : β) :
    DoResponseCall β γ :=
  { statusCode := jsOrNat opts.statusCode 200
  , headers := [("Content-Type", opts.contentType)]
  , body := formattedContent
  , cb := cb }

/-- Responder lines 236-250: `this.respond(content, options, cb)`.  The
external `response.formatContent` collaborator (outside `src/`) is a
parameter producing the formatted body from the format, the content and the
options; `respond` hands that body to `formatCb`. -/
def respond {α β γ : Type} (formatContent : String → α → RespondOpts → β)
    (content : α) (opts : RespondOpts) (cb : γ) : DoResponseCall β γ :=
  formatCb opts cb (formatContent opts.format content opts)

/-! ### Helper lemmas -/

/-- A successful match from the modelled matcher is exactly the content type
the resolver registers for the format. -/
theorem matchAccept_eq_resolve (resolve : String → Option String) (accepts : List String)
    (f m : String) (h : matchAcceptHeaderContentType resolve accepts f = some m) :
    resolve f = some m := by
  unfold matchAcceptHeaderContentType at h
  cases hres : resolve f with
  | none => rw [hres] at h; exact absurd h (by simp)
  | some ct =>
    rw [hres] at h
    by_cases hb : (accepts.any fun a => acceptMedia a == ct) = true
    · simp only [hb, if_true] at h
      exact h
    · simp only [hb, if_false] at h
      exact absurd h (by simp)

/-- Characterization of a successful run of the decision procedure: the
candidate list is non-empty, the returned format is its head, and the
returned content type is the resolver's entry for that head. -/
theorem negotiateDecide_ok (resolve : String → Option String) (accepts types : List String)
    (r : NegotiationResult) (h : negotiateDecide resolve accepts types = .ok r) :
    ∃ t rest ct, types = t :: rest ∧ r.format = some t ∧ r.contentType = some ct ∧
      resolve t = some ct := by
  unfold negotiateDecide at h
  split at h
  · rename_i hlen
    cases types with
    | nil => simp at hlen
    | cons t rest =>
      refine ⟨t, rest, ?_⟩
      split at h
      · simp only [List.headD_cons] at h
        cases hres : resolve t with
        | none => rw [hres] at h; exact absurd h (by simp)
        | some ct =>
          rw [hres] at h
          simp only [Except.ok.injEq] at h
          subst h
          exact ⟨ct, rfl, rfl, rfl, rfl⟩
      · simp only [negotiateLoop] at h
        cases hm : matchAcceptHeaderContentType resolve accepts t with
        | none => rw [hm] at h; exact absurd h (by simp)
        | some m =>
          rw [hm] at h
          simp only [Except.ok.injEq] at h
          subst h
          exact ⟨m, rfl, rfl, rfl, matchAccept_eq_resolve resolve accepts t m hm⟩
  · exact absurd h (by simp)

/-- The wildcard test only looks at the entries through `acceptMedia`. -/
theorem any_media_congr (x : String) (ac ac2 : List String)
    (h : ac.map acceptMedia = ac2.map acceptMedia) :
    (ac.any fun a => acceptMedia a == x) = (ac2.any fun a => acceptMedia a == x) := by
  have h1 : ∀ l : List String,
      (l.any fun a => acceptMedia a == x) = (l.map acceptMedia).any fun b => b == x := by
    intro l
    rw [List.any_map]
    rfl
  rw [h1, h1, h]

/-- The modelled matcher only looks at the entries through `acceptMedia`. -/
theorem matchAccept_media_congr (resolve : String → Option String) (ac ac2 : List String)
    (f : String) (h : ac.map acceptMedia = ac2.map acceptMedia) :
    matchAcceptHeaderContentType resolve ac f = matchAcceptHeaderContentType resolve ac2 f := by
  unfold matchAcceptHeaderContentType
  cases resolve f with
  | none => rfl
  | some ct =>
    have h2 := any_media_congr ct ac ac2 h
    simp only [h2]

/-- The candidate loop only looks at the entries through `acceptMedia`. -/
theorem negotiateLoop_media_congr (resolve : String → Option String) (ac ac2 : List String)
    (types : List String) (h : ac.map acceptMedia = ac2.map acceptMedia) :
    negotiateLoop resolve ac types = negotiateLoop resolve ac2 types := by
  cases types with
  | nil => rfl
  | cons t rest => simp only [negotiateLoop, matchAccept_media_congr resolve ac ac2 t h]

/-- The whole decision procedure only looks at the entries through
`acceptMedia`. -/
theorem negotiateDecide_media_congr (resolve : String → Option String) (ac ac2 : List String)
    (types : List String) (h : ac.map acceptMedia = ac2.map acceptMedia) :
    negotiateDecide resolve ac types = negotiateDecide resolve ac2 types := by
  unfold negotiateDecide
  rw [any_media_congr _ ac ac2 h, negotiateLoop_media_congr resolve ac ac2 types h]

/-- `takeWhile` over an append stops exactly at the first failing element. -/
theorem takeWhile_append_stop (p : Char → Bool) (l m : List Char) (c : Char)
    (hl : ∀ x ∈ l, p x = true) (hc : p c = false) :
    (l ++ c :: m).takeWhile p = l := by
  induction l with
  | nil => simp [List.takeWhile_cons, hc]
  | cons x xs ih =>
    have hx := hl x (List.mem_cons_self x xs)
    simp [List.takeWhile_cons, hx, ih fun y hy => hl y (List.mem_cons_of_mem x hy)]

/-! ### Claim theorems -/

/-- Claim C1: on the non-wildcard decision path of `negotiate` (candidate
set non-empty, no Accept entry is `*/*`), the first candidate whose
registered content type matches some Accept entry wins, and a candidate
with no match makes negotiation fail immediately with
UndefinedFormatError, regardless of the remaining candidates; in
particular, for Accept header `"application/json"`, allowed formats
`["html", "json"]` and no hints, negotiation fails on `"html"` instead of
falling through to `"json"`. -/
theorem negotiate_first_unmatched_fails (resolve : String → Option String)
    (pf frmt : Option String) (ah : String) (formats ks : List String)
    (t : String) (rest : List String)
    (hah : ah ≠ "")
    (hnw : ∀ a ∈ splitAccepts ah, acceptMedia a ≠ "*/*")
    (htypes : typesOf (acceptFormatsOf formats ks) frmt pf = t :: rest) :
    (matchAcceptHeaderContentType resolve (splitAccepts ah) t = none →
      negotiate resolve pf (some ah) formats frmt ks = .error ()) ∧
    (∀ m, matchAcceptHeaderContentType resolve (splitAccepts ah) t = some m →
      negotiate resolve pf (some ah) formats frmt ks = .ok ⟨some t, some m⟩) ∧
    negotiate defaultResolve none (some "application/json") ["html", "json"] none [] =
      .error () := by
  have hacc : acceptsOf (some ah) = splitAccepts ah := by simp [acceptsOf, hah]
  have hwild : ((splitAccepts ah).any fun a => acceptMedia a == "*/*") = false := by
    rw [List.any_eq_false]
    intro a haa
    simpa using hnw a haa
  refine ⟨?_, ?_, by decide⟩
  · intro hm
    unfold negotiate
    rw [hacc, htypes]
    unfold negotiateDecide
    rw [if_pos (by simp), if_neg (by simp [hwild])]
    simp [negotiateLoop, hm]
  · intro m hm
    unfold negotiate
    rw [hacc, htypes]
    unfold negotiateDecide
    rw [if_pos (by simp), if_neg (by simp [hwild])]
    simp [negotiateLoop, hm]

/-- Witness for C1 at Accept `"application/json"`, formats
`["html", "json"]`, no hints: the first candidate `"html"` has no match and
negotiation fails there. -/
theorem negotiate_first_unmatched_fails_witness :
    matchAcceptHeaderContentType defaultResolve (splitAccepts "application/json") "html" =
      none ∧
    negotiate defaultResolve none (some "application/json") ["html", "json"] none [] =
      .error () :=
  ⟨by decide,
    (negotiate_first_unmatched_fails defaultResolve none none "application/json"
      ["html", "json"] [] "html" ["json"] (by decide) (by decide) (by decide)).1 (by decide)⟩

/-- Claim C2: when the Accept header is absent (treated as `*/*`) or some
entry's media-type portion is `*/*`, `negotiate` short-circuits to the
first candidate and its resolved content type, provided that content type
resolves; with no hints the candidate list is the merged format list, so
with empty strategies the first candidate is `allowedFormats[0]`, even when
a more specific entry precedes the wildcard, as in Accept
`"application/json, */*"` with formats `["html", "json"]`. -/
theorem negotiate_wildcard_first (resolve : String → Option String)
    (pf frmt ah : Option String) (formats ks : List String)
    (t : String) (rest : List String) (ct : String)
    (htypes : typesOf (acceptFormatsOf formats ks) frmt pf = t :: rest)
    (hw : ∃ a ∈ acceptsOf ah, acceptMedia a = "*/*")
    (hct : resolve t = some ct) :
    negotiate resolve pf ah formats frmt ks = .ok ⟨some t, some ct⟩ ∧
    (∀ fs : List String, typesOf (acceptFormatsOf fs []) none none = fs) ∧
    negotiate defaultResolve none (some "application/json, */*") ["html", "json"] none [] =
      .ok ⟨some "html", some "text/html"⟩ := by
  have hw2 : ((acceptsOf ah).any fun a => acceptMedia a == "*/*") = true := by
    rw [List.any_eq_true]
    obtain ⟨a, hmem, hme⟩ := hw
    exact ⟨a, hmem, by simp [hme]⟩
  refine ⟨?_, ?_, by decide⟩
  · unfold negotiate negotiateDecide
    rw [htypes]
    simp [hw2, hct]
  · intro fs
    simp [typesOf, truthy, acceptFormatsOf]

/-- Witness for C2 at Accept `"application/json, */*"` and formats
`["html", "json"]`: the wildcard short-circuits to `"html"`. -/
theorem negotiate_wildcard_first_witness :
    defaultResolve "html" = some "text/html" ∧
    negotiate defaultResolve none (some "application/json, */*") ["html", "json"] none [] =
      .ok ⟨some "html", some "text/html"⟩ :=
  ⟨rfl,
    (negotiate_wildcard_first defaultResolve none none (some "application/json, */*")
      ["html", "json"] [] "html" ["json"] "text/html" (by decide)
      ⟨"*/*", by decide, by decide⟩ rfl).1⟩

/-- Claim C5: with no explicit format argument and a (truthy) `params.format`
set, the candidate set is exactly `[params.format]` when that format occurs
in the merged allowed-plus-strategy-keys list, and is empty when it does
not, in which case negotiation fails synchronously with
UndefinedFormatError and no fallback to the full allowed list. -/
theorem negotiate_param_format (resolve : String → Option String) (ah : Option String)
    (formats ks : List String) (f : String) (hf : f ≠ "") :
    ((acceptFormatsOf formats ks).contains f = true →
      typesOf (acceptFormatsOf formats ks) none (some f) = [f]) ∧
    ((acceptFormatsOf formats ks).contains f = false →
      typesOf (acceptFormatsOf formats ks) none (some f) = [] ∧
      negotiate resolve (some f) ah formats none ks = .error ()) := by
  constructor
  · intro hc
    have hc2 : f ∈ acceptFormatsOf formats ks := by simpa using hc
    simp [typesOf, truthy, hf, hc2]
  · intro hc
    have hc2 : f ∉ acceptFormatsOf formats ks := by simpa using hc
    have h1 : typesOf (acceptFormatsOf formats ks) none (some f) = [] := by
      simp [typesOf, truthy, hf, hc2]
    refine ⟨h1, ?_⟩
    unfold negotiate
    rw [h1]
    simp [negotiateDecide]

/-- Witness for C5 at `params.format = "pdf"` with formats
`["html", "json"]` and no strategies: the merged list does not contain
`"pdf"`, and negotiation fails even though the client accepts anything. -/
theorem negotiate_param_format_witness :
    (acceptFormatsOf ["html", "json"] []).contains "pdf" = false ∧
    negotiate defaultResolve (some "pdf") (some "*/*") ["html", "json"] none [] = .error () :=
  ⟨by decide,
    ((negotiate_param_format defaultResolve (some "*/*") ["html", "json"] [] "pdf"
      (by decide)).2 (by decide)).2⟩

/-- Claim C6: an explicit (truthy) `frmt` argument makes the candidate set
exactly `[frmt]`, whatever the allowed formats, strategy keys and
`params.format` are; consequently the whole negotiation is independent of
the allowed formats, the strategy keys and `params.format`. -/
theorem negotiate_explicit_format (resolve : String → Option String)
    (pf pf2 ah : Option String) (formats formats2 ks ks2 : List String)
    (s : String) (hs : s ≠ "") :
    typesOf (acceptFormatsOf formats ks) (some s) pf = [s] ∧
    negotiate resolve pf ah formats (some s) ks =
      negotiate resolve pf2 ah formats2 (some s) ks2 := by
  have h1 : ∀ (fs kss : List String) (p : Option String),
      typesOf (acceptFormatsOf fs kss) (some s) p = [s] := by
    intro fs kss p
    simp [typesOf, truthy, hs]
  refine ⟨h1 formats ks pf, ?_⟩
  unfold negotiate
  rw [h1, h1]

/-- Witness for C6 at `frmt = "json"` with formats `["html"]` and
`params.format = "html"`: the sole candidate is `"json"`. -/
theorem negotiate_explicit_format_witness :
    typesOf (acceptFormatsOf ["html"] []) (some "json") (some "html") = ["json"] :=
  (negotiate_explicit_format defaultResolve (some "html") none none ["html"] [] [] []
    "json" (by decide)).1

/-- Claim C7: every result returned successfully by `negotiate` carries a
format whose content type resolves via the Content-Type Resolver to exactly
the returned content type; a result is never returned with an unresolvable
or differing content type. -/
theorem negotiate_roundtrip (resolve : String → Option String)
    (pf ah frmt : Option String) (formats ks : List String) (r : NegotiationResult)
    (h : negotiate resolve pf ah formats frmt ks = .ok r) :
    ∃ f ct, r.format = some f ∧ r.contentType = some ct ∧ resolve f = some ct := by
  have h2 : negotiateDecide resolve (acceptsOf ah)
      (typesOf (acceptFormatsOf formats ks) frmt pf) = .ok r := h
  obtain ⟨t, rest, ct, _, hf, hc, hres⟩ := negotiateDecide_ok _ _ _ _ h2
  exact ⟨t, ct, hf, hc, hres⟩

/-- Witness for C7: negotiating `["html"]` with no Accept header yields
`{format: "html", contentType: "text/html"}`, and the resolver maps
`"html"` back to `"text/html"`. -/
theorem negotiate_roundtrip_witness :
    negotiate defaultResolve none none ["html"] none [] =
      .ok ⟨some "html", some "text/html"⟩ ∧
    defaultResolve "html" = some "text/html" := by
  refine ⟨by decide, ?_⟩
  obtain ⟨f, ct, hf, hc, hr⟩ := negotiate_roundtrip defaultResolve none none none ["html"] []
    ⟨some "html", some "text/html"⟩ (by decide)
  injection hf with hf
  injection hc with hc
  rw [← hf, ← hc] at hr
  exact hr

/-- Claim C10: whenever `negotiate` returns successfully, the returned
format is the first element of the candidate list: the wildcard path picks
`types[0]` and the matching loop either succeeds or throws at the first
candidate, so a later candidate can never be returned. -/
theorem negotiate_format_is_first_candidate (resolve : String → Option String)
    (pf ah frmt : Option String) (formats ks : List String) (r : NegotiationResult)
    (h : negotiate resolve pf ah formats frmt ks = .ok r) :
    ∃ f, r.format = some f ∧
      (typesOf (acceptFormatsOf formats ks) frmt pf).head? = some f := by
  have h2 : negotiateDecide resolve (acceptsOf ah)
      (typesOf (acceptFormatsOf formats ks) frmt pf) = .ok r := h
  obtain ⟨t, rest, ct, htypes, hf, _, _⟩ := negotiateDecide_ok _ _ _ _ h2
  exact ⟨t, hf, by rw [htypes]; rfl⟩

/-- Witness for C10: with formats `["html", "json"]` and no Accept header
the returned format `"html"` is the head of the candidate list. -/
theorem negotiate_format_is_first_candidate_witness :
    negotiate defaultResolve none none ["html", "json"] none [] =
      .ok ⟨some "html", some "text/html"⟩ ∧
    (typesOf (acceptFormatsOf ["html", "json"] []) none none).head? = some "html" := by
  refine ⟨by decide, ?_⟩
  obtain ⟨f, hf, hh⟩ := negotiate_format_is_first_candidate defaultResolve none none none
    ["html", "json"] [] ⟨some "html", some "text/html"⟩ (by decide)
  injection hf with hf
  rw [← hf] at hh
  exact hh

/-- Claim C8: after negotiation completes successfully inside `respondTo`,
a set `completed` flag makes dispatch return silently, invoking neither a
strategy handler nor the default responder; a handler or the default
responder runs only when `completed` is false. -/
theorem respondTo_completed_aborts (resolve : String → Option String)
    (pf ah : Option String) (formats : List String) (completed : Bool)
    (strategies : List (String × Bool)) (a : DispatchAction)
    (h : respondTo resolve pf ah formats completed strategies = .ok a) :
    (completed = true → a = .silent) ∧ (a ≠ .silent → completed = false) := by
  unfold respondTo at h
  cases hn : negotiate resolve pf ah formats none (strategies.map Prod.fst) with
  | error e => rw [hn] at h; cases e; exact absurd h (by simp)
  | ok negotiated =>
    rw [hn] at h
    have key : completed = true → a = .silent := by
      intro hcomp
      rw [hcomp] at h
      simp only [if_true, Except.ok.injEq] at h
      exact h.symm
    refine ⟨key, ?_⟩
    intro hne
    cases hcv : completed with
    | false => rfl
    | true => exact absurd (key hcv) hne

/-- Witness for C8: negotiation succeeds for `["html"]` with no Accept
header, and with `completed = true` dispatch returns silently. -/
theorem respondTo_completed_aborts_witness :
    respondTo defaultResolve none none ["html"] true [] = .ok DispatchAction.silent ∧
    DispatchAction.silent = DispatchAction.silent :=
  ⟨by decide,
    (respondTo_completed_aborts defaultResolve none none ["html"] true []
      DispatchAction.silent (by decide)).1 rfl⟩

/-- Claim C4: a present Accept header is split on commas tolerating the
whitespace around them, and each entry's `;`-parameters are stripped before
comparison, so only the media-type portion enters both the wildcard
decision and the candidate match: two headers whose entries have the same
media-type portions negotiate identically, whatever their `;`-parameters. -/
theorem negotiate_strips_params (resolve : String → Option String) (pf frmt : Option String)
    (formats ks : List String) (a b : String) (ha : a ≠ "") (hb : b ≠ "")
    (h : (splitAccepts a).map acceptMedia = (splitAccepts b).map acceptMedia) :
    negotiate resolve pf (some a) formats frmt ks =
      negotiate resolve pf (some b) formats frmt ks ∧
    splitAccepts "text/html , application/json;q=0.9" =
      ["text/html", "application/json;q=0.9"] ∧
    acceptMedia "application/json;q=0.9" = "application/json" ∧
    ∀ e ps : String, (∀ c ∈ e.toList, c ≠ ';') → acceptMedia (e ++ ";" ++ ps) = e := by
  refine ⟨?_, by decide, by decide, ?_⟩
  · unfold negotiate
    have h1 : acceptsOf (some a) = splitAccepts a := by simp [acceptsOf, ha]
    have h2 : acceptsOf (some b) = splitAccepts b := by simp [acceptsOf, hb]
    rw [h1, h2]
    exact negotiateDecide_media_congr resolve _ _ _ h
  · intro e ps hns
    unfold acceptMedia
    have hdata : (e ++ ";" ++ ps).toList = e.toList ++ ';' :: ps.toList := by
      show (e ++ ";" ++ ps).data = e.data ++ ';' :: ps.data
      rw [String.data_append, String.data_append, List.append_assoc]
      rfl
    rw [hdata]
    rw [takeWhile_append_stop (fun c => c ≠ ';') e.toList ps.toList ';'
      (fun x hx => by simpa using hns x hx) (by simp)]
    rfl

/-- Witness for C4: `"text/html;q=0.9"` and `"text/html"` have the same
media-type portions and negotiate identically. -/
theorem negotiate_strips_params_witness :
    (splitAccepts "text/html;q=0.9").map acceptMedia =
      (splitAccepts "text/html").map acceptMedia ∧
    negotiate defaultResolve none (some "text/html;q=0.9") ["html"] none [] =
      negotiate defaultResolve none (some "text/html") ["html"] none [] :=
  ⟨by decide,
    (negotiate_strips_params defaultResolve none none ["html"] [] "text/html;q=0.9"
      "text/html" (by decide) (by decide) (by decide)).1⟩

/-- Claim C3 as stated is false: `respondWith(x, {type:"override"})` does
NOT use `"override"` for every `x` — for a value with no `type` attribute
the inference on line 178 (`content.type.toLowerCase()`) throws a TypeError
before the override on line 182 is reached. -/
theorem respondWith_override_counterexample :
    respondWithType (Content.single none) (some "override") ≠ .ok (some "override") := by
  decide

/-- Claim C3 (amended): provided the inference step does not throw (the
value, or the first element of a non-empty array, carries a type attribute,
or the array is empty), a supplied truthy `options.type` is always the
type used; otherwise the attached type is the lower-cased type attribute of
the first element (array case) or of the value itself (non-array case), and
an empty array yields no inferred type. -/
theorem respondWith_type_inference (content : Content) (o t : Option String)
    (h : inferType content = .ok t) :
    respondWithType content o = .ok (if truthy o then o else t) ∧
    inferType (Content.coll []) = .ok none ∧
    (∀ s : String, inferType (Content.single (some s)) = .ok (some (jsToLower s))) ∧
    (∀ (s : String) (es : List (Option String)),
      inferType (Content.coll (some s :: es)) = .ok (some (jsToLower s))) := by
  refine ⟨?_, rfl, fun s => rfl, fun s es => rfl⟩
  unfold respondWithType
  rw [h]

/-- Witness for C3 (amended): `respondWith([{type:"Widget"}], {type:"override"})`
attaches `"override"`. -/
theorem respondWith_type_inference_witness :
    inferType (Content.coll [some "Widget"]) = .ok (some "widget") ∧
    respondWithType (Content.coll [some "Widget"]) (some "override") =
      .ok (some "override") := by
  have h : inferType (Content.coll [some "Widget"]) = .ok (some "widget") := by decide
  refine ⟨h, ?_⟩
  have h2 := (respondWith_type_inference (Content.coll [some "Widget"]) (some "override")
    (some "widget") h).1
  have h3 : truthy (some "override") = true := by decide
  rw [h3] at h2
  simpa using h2

/-- Claim C9 as stated is false at a supplied status code of 0: the source
computes `opts.statusCode || 200`, and JavaScript `||` treats a supplied 0
as falsy, so the written status is 200, not the supplied 0. -/
theorem respond_statusCode_zero_counterexample :
    (respond (fun _ _ _ => "body") () ⟨"html", "text/html", some 0⟩ ()).statusCode ≠ 0 := by
  decide

/-- Claim C9 (amended): once the format-content collaborator delivers the
formatted body, `respond` calls the write-response collaborator with status
`options.statusCode` when supplied and nonzero and 200 otherwise (the
JavaScript `||` default treats a supplied 0 like an absent one), headers
exactly `{Content-Type: options.contentType}`, the formatted body, and the
original caller callback forwarded unchanged. -/
theorem respond_writes_response {α β γ : Type} (formatContent : String → α → RespondOpts → β)
    (content : α) (opts : RespondOpts) (cb : γ) :
    ((opts.statusCode = none ∨ opts.statusCode = some 0) →
      (respond formatContent content opts cb).statusCode = 200) ∧
    (∀ n : Nat, opts.statusCode = some n → n ≠ 0 →
      (respond formatContent content opts cb).statusCode = n) ∧
    (respond formatContent content opts cb).headers = [("Content-Type", opts.contentType)] ∧
    (respond formatContent content opts cb).body = formatContent opts.format content opts ∧
    (respond formatContent content opts cb).cb = cb := by
  refine ⟨?_, ?_, rfl, rfl, rfl⟩
  · rintro (h | h) <;> simp [respond, formatCb, jsOrNat, h]
  · intro n hn hnz
    simp [respond, formatCb, jsOrNat, hn, hnz]

/-- Witness for C9 (amended): a supplied 0 yields status 200; a supplied
201 is used as is. -/
theorem respond_writes_response_witness :
    (respond (fun _ _ _ => "B") () ⟨"html", "text/html", some 0⟩ 7).statusCode = 200 ∧
    (respond (fun _ _ _ => "B") () ⟨"html", "text/html", some 201⟩ 7).statusCode = 201 :=
  ⟨(respond_writes_response (fun _ _ _ => "B") () ⟨"html", "text/html", some 0⟩ 7).1
      (Or.inr rfl),
    (respond_writes_response (fun _ _ _ => "B") () ⟨"html", "text/html", some 201⟩ 7).2.1
      201 rfl (by decide)⟩

end Responder
